import Mathlib

/-!
Verification development for the record-collection manager
(`record_manager.py`).  The data model, the cover-resolution functions and
the record-mutating operations are embedded shallowly below; external
effects (HTTP requests, the filesystem) are threaded explicitly: the
filesystem is the list of existing file paths, and network behaviour is a
`Net` structure of response oracles, so every function is executable.
-/

namespace RecordManager

/-- Python truthiness of an optional string: `None` and `""` are falsy. -/
def truthy : Option String → Bool
  | none => false
  | some s => !s.isEmpty

/-! ### Character-list string helpers (structural, so the kernel evaluates them) -/

/-- `chStarts pat s`: `pat` is an initial segment of `s`. -/
def chStarts : List Char → List Char → Bool
  | [], _ => true
  | _ :: _, [] => false
  | a :: asr, b :: bs => a = b && chStarts asr bs

/-- Occurrence of `pat` anywhere inside `s` (Python `in` on strings). -/
def chSub (pat : List Char) : List Char → Bool
  | [] => pat.isEmpty
  | c :: t => chStarts pat (c :: t) || chSub pat t

/-- `strHas s sub`: Python `sub in s`. -/
def strHas (s sub : String) : Bool := chSub sub.toList s.toList

/-- Fueled worker for `strReplace`; fuel bounds the scan length. -/
def replaceAux (pat rep : List Char) : Nat → List Char → List Char
  | 0, s => s
  | _ + 1, [] => []
  | fuel + 1, c :: t =>
    if pat.length > 0 && chStarts pat (c :: t) then
      rep ++ replaceAux pat rep fuel ((c :: t).drop pat.length)
    else c :: replaceAux pat rep fuel t

/-- Python `str.replace` (all occurrences, left to right). -/
def strReplace (s pat rep : String) : String :=
  String.mk (replaceAux pat.toList rep.toList s.toList.length s.toList)

/-- Lower-casing, per character (Python `str.lower` on ASCII data). -/
def strLower (s : String) : String := String.mk (s.toList.map Char.toLower)

/-- Python `url.split('?')[0]`: the part before the first `?`. -/
def splitQuery (s : String) : String := String.mk (s.toList.takeWhile (· ≠ '?'))

/-- The extension part of `os.path.splitext`: the suffix of the basename
from its last dot, where the leading dots of the basename never count as
an extension separator. -/
def splitextExt (p : String) : String :=
  let base := ((p.toList.reverse.takeWhile (· ≠ '/'))).reverse
  let lead := base.takeWhile (· = '.')
  let rest := base.drop lead.length
  if rest.any (· = '.') then
    String.mk ('.' :: (rest.reverse.takeWhile (· ≠ '.')).reverse)
  else ""

/-! ### Filesystem model: the list of paths that exist on disk -/

/-- `os.path.exists` over the modelled filesystem. -/
def fsHas : List String → String → Bool
  | [], _ => false
  | q :: t, p => if q = p then true else fsHas t p

/-- `os.remove` over the modelled filesystem. -/
def fsRemove : List String → String → List String
  | [], _ => []
  | q :: t, p => if q = p then fsRemove t p else q :: fsRemove t p

/-! ### Data model -/

/-- A catalog record (`Dict[str, Any]` in the source); `none` stands for an
absent key or an explicit `None`, which the code never distinguishes when
reading a record. -/
structure Record where
  artist : Option String := none
  album : Option String := none
  genre : Option String := none
  year : Option String := none
  format : Option String := none
  notes : Option String := none
  cover_path : Option String := none
deriving Repr, DecidableEq

/-- The `new_data` mapping of `update_record`: the outer `Option` is key
presence (`'cover_path' in new_data`), the inner value may be Python
`None`. -/
structure NewData where
  artist : Option (Option String) := none
  album : Option (Option String) := none
  genre : Option (Option String) := none
  year : Option (Option String) := none
  format : Option (Option String) := none
  notes : Option (Option String) := none
  cover_path : Option (Option String) := none
deriving Repr, DecidableEq

/-- The field-merge loop of `update_record`: every key present in
`new_data` except `cover_path` overwrites the copied record. -/
def mergeFields (r : Record) (nd : NewData) : Record :=
  { r with
    artist := nd.artist.getD r.artist
    album := nd.album.getD r.album
    genre := nd.genre.getD r.genre
    year := nd.year.getD r.year
    format := nd.format.getD r.format
    notes := nd.notes.getD r.notes }

/-! ### `_sanitize_filename` -/

/-- The characters matched by the regex `[\/*?:"<>|]`; in a regex `\/` is
an escaped forward slash, so the class holds no backslash. -/
def sanitizeRemoved : List Char := ['/', '*', '?', ':', '"', '<', '>', '|']

/-- `_sanitize_filename`: strip the regex class, replace spaces with
underscores, truncate to 100 characters. -/
def sanitize_filename (name : String) : String :=
  let removed := name.toList.filter (fun c => !(sanitizeRemoved.contains c))
  let replaced := removed.map (fun c => if c = ' ' then '_' else c)
  String.mk (replaced.take 100)

/-! ### Network model

Every HTTP interaction of the source is an input: `head` is the outcome of
the `requests.head` probe per URL, `getOk` whether the full
`requests.get`+write of a URL succeeds, `writeOk` whether opening the
target file for writing succeeds, `search` the iTunes search response per
query term, and `removeOk` whether `os.remove` of a path succeeds. -/

/-- Outcome of the `requests.head` probe: a response (with an optional
`content-type` header) or a raised `RequestException` (which also covers
`raise_for_status`). -/
inductive HeadResult where
  | ok (contentType : Option String)
  | err
deriving Repr, DecidableEq

/-- The artwork-URL keys of the top iTunes search result; `some` means the
key is present in the result object. -/
structure ArtRes where
  artworkUrl1000 : Option String := none
  artworkUrl600 : Option String := none
  artworkUrl100 : Option String := none
deriving Repr, DecidableEq

/-- iTunes search outcome: request/JSON failure, `resultCount == 0`, or a
top result. -/
inductive SearchOutcome where
  | err
  | empty
  | found (res : ArtRes)
deriving Repr, DecidableEq

structure Net where
  head : String → HeadResult
  getOk : String → Bool
  writeOk : String → Bool
  search : String → SearchOutcome
  removeOk : String → Bool

/-! ### `_download_and_save_image` -/

/-- The URL-suffix fallback: `os.path.splitext(image_url.split('?')[0])[1]`,
kept only when non-empty and at most 5 characters. -/
def extFromUrl (url : String) : Option String :=
  let parsed := splitextExt (splitQuery url)
  if !parsed.isEmpty && parsed.length ≤ 5 then some parsed else none

/-- The content-type to extension mapping, with the URL fallback when the
content type names no known image type. -/
def extFromContentType (ct : String) (url : String) : String :=
  let c := strLower ct
  if strHas c "jpeg" || strHas c "jpg" then ".jpg"
  else if strHas c "png" then ".png"
  else if strHas c "gif" then ".gif"
  else if strHas c "webp" then ".webp"
  else (extFromUrl url).getD ".jpg"

/-- The extension-determination step of `_download_and_save_image`: HEAD
probe first, URL parsing as fallback, `.jpg` as default. -/
def determineExt (net : Net) (url : String) : String :=
  match net.head url with
  | .err => (extFromUrl url).getD ".jpg"
  | .ok ct =>
    if truthy ct then extFromContentType (ct.getD "") url
    else (extFromUrl url).getD ".jpg"

/-- Result of a download helper: the returned path (`None` on failure),
the filesystem afterwards, and whether a full `requests.get` download was
performed (false on the already-exists short circuit). -/
structure DlResult where
  path : Option String
  fs : List String
  fetched : Bool
deriving Repr, DecidableEq

/-- `_download_and_save_image`: determine the extension, short-circuit if
the target file already exists, otherwise download and write; any network
or I/O failure yields `None` with the filesystem unchanged. -/
def download_and_save_image (cd : String) (net : Net) (fs : List String)
    (image_url base_filename : String) : DlResult :=
  if image_url.isEmpty || base_filename.isEmpty then ⟨none, fs, false⟩
  else
    let ext := determineExt net image_url
    let filepath := cd ++ "/" ++ base_filename ++ ext
    if fsHas fs filepath then ⟨some filepath, fs, false⟩
    else if net.getOk image_url && net.writeOk filepath then
      ⟨some filepath, filepath :: fs, true⟩
    else ⟨none, fs, true⟩

/-- The artwork-key scan of `download_album_cover`: first key of
`['artworkUrl1000', 'artworkUrl600', 'artworkUrl100']` present in the
result wins. -/
def firstArtKey (res : ArtRes) : Option String :=
  match res.artworkUrl1000 with
  | some u => some u
  | none =>
    match res.artworkUrl600 with
    | some u => some u
    | none => res.artworkUrl100

/-- `download_album_cover`: query the search service with
`"{artist} {album}"`, upgrade the `100x100bb` marker, and download. -/
def download_album_cover (cd : String) (net : Net) (fs : List String)
    (artist album : String) : DlResult :=
  if artist.isEmpty || album.isEmpty then ⟨none, fs, false⟩
  else
    let base := sanitize_filename artist ++ "_" ++ sanitize_filename album
    match net.search (artist ++ " " ++ album) with
    | .err => ⟨none, fs, false⟩
    | .empty => ⟨none, fs, false⟩
    | .found res =>
      match firstArtKey res with
      | none => ⟨none, fs, false⟩
      | some u =>
        let u2 := strReplace u "100x100bb" "600x600bb"
        if u2.isEmpty then ⟨none, fs, false⟩
        else download_and_save_image cd net fs u2 base

/-! ### Catalog operations -/

/-- `find_record_by_index`: zero-based index with an explicit bounds
check; Python indices may be negative, so the index is an integer. -/
def find_record_by_index (collection : List Record) (index : Int) :
    Option Record :=
  if 0 ≤ index ∧ index < (collection.length : Int) then
    collection[index.toNat]?
  else none

/-- The cover-art handling block of `update_record`: returns the final
cover path, the filesystem after any download, and whether a download
(manual or automatic) was attempted.  Priorities: manual URL, explicit
`cover_path` key, `manage_cover`, keep old. -/
def resolveCover (cd : String) (net : Net) (fs : List String) (record : Record)
    (new_data : NewData) (manage_cover : Bool) (manual_cover_url : Option String) :
    Option String × List String × Bool :=
  let old_cover_path := record.cover_path
  let current_artist := new_data.artist.getD record.artist
  let current_album := new_data.album.getD record.album
  if truthy manual_cover_url then
    if truthy current_artist && truthy current_album then
      let base := sanitize_filename (current_artist.getD "") ++ "_" ++
        sanitize_filename (current_album.getD "")
      let r := download_and_save_image cd net fs (manual_cover_url.getD "") base
      match r.path with
      | some p => (some p, r.fs, true)
      | none => (old_cover_path, r.fs, true)
    else (old_cover_path, fs, false)
  else
    match new_data.cover_path with
    | some v => (v, fs, false)
    | none =>
      if manage_cover then
        if truthy current_artist && truthy current_album then
          let r := download_album_cover cd net fs (current_artist.getD "")
            (current_album.getD "")
          match r.path with
          | some p => (some p, r.fs, true)
          | none => (none, r.fs, true)
        else (old_cover_path, fs, false)
      else (old_cover_path, fs, false)

/-- Result of `update_record`: the boolean return value, the collection
and filesystem afterwards, and the download-attempted observation. -/
structure UpdResult where
  ok : Bool
  collection : List Record
  fs : List String
  attempted : Bool
deriving Repr, DecidableEq

/-- `update_record`: bounds check, cover resolution, field merge, old-file
cleanup, in-place store.  A failed `os.remove` of the old cover is caught,
so the operation still succeeds. -/
def update_record (cd : String) (net : Net) (collection : List Record)
    (fs : List String) (index : Int) (new_data : NewData)
    (manage_cover : Bool) (manual_cover_url : Option String) : UpdResult :=
  match find_record_by_index collection index with
  | none => ⟨false, collection, fs, false⟩
  | some record =>
    let old_cover_path := record.cover_path
    let step := resolveCover cd net fs record new_data manage_cover manual_cover_url
    let final_cover_path := step.1
    let fs1 := step.2.1
    let updated := { mergeFields record new_data with cover_path := final_cover_path }
    let fs2 :=
      if final_cover_path ≠ old_cover_path ∧ truthy old_cover_path ∧
          fsHas fs1 (old_cover_path.getD "") then
        if net.removeOk (old_cover_path.getD "") then
          fsRemove fs1 (old_cover_path.getD "")
        else fs1
      else fs1
    ⟨true, collection.set index.toNat updated, fs2, step.2.2⟩

/-- `delete_record`: bounds check, pop, best-effort removal of the
associated cover file (an `OSError` there is caught). -/
def delete_record (net : Net) (collection : List Record) (fs : List String)
    (index : Int) : Bool × List Record × List String :=
  if 0 ≤ index ∧ index < (collection.length : Int) then
    match collection[index.toNat]? with
    | none => (false, collection, fs)
    | some deleted =>
      let fs2 :=
        if truthy deleted.cover_path ∧ fsHas fs (deleted.cover_path.getD "") then
          if net.removeOk (deleted.cover_path.getD "") then
            fsRemove fs (deleted.cover_path.getD "")
          else fs
        else fs
      (true, collection.eraseIdx index.toNat, fs2)
  else (false, collection, fs)

/-! ### `load_collection` -/

/-- State of the backing JSON file as `load_collection` observes it:
absent, present but unreadable/undecodable, or decoding to a list of
records. -/
inductive DbFile where
  | absent
  | unreadable
  | decoded (recs : List Record)
deriving Repr, DecidableEq

/-- What `load_collection` reported alongside the loaded catalog. -/
inductive LoadOutcome where
  | loaded
  | emptyNotFound
  | emptyWithWarning
deriving Repr, DecidableEq

/-- `load_collection`: absent file or failed decode yield an empty
catalog; every branch returns normally (no exception escapes). -/
def load_collection : DbFile → List Record × LoadOutcome
  | .absent => ([], .emptyNotFound)
  | .unreadable => ([], .emptyWithWarning)
  | .decoded recs => (recs, .loaded)

/-! ### `find_and_download_missing_covers` -/

/-- The per-record missing test of the sweep, against a given filesystem:
no (truthy) cover path, or a path whose file does not exist. -/
def missingRec (fs : List String) (r : Record) : Bool :=
  if truthy r.cover_path = false then true
  else !(fsHas fs (r.cover_path.getD ""))

/-- The records the sweep would count missing against a fixed filesystem. -/
def countMissing (fs : List String) (coll : List Record) : Nat :=
  (coll.filter (missingRec fs)).length

/-- Of the missing records, those with truthy artist and album (the ones
eligible for a download). -/
def countMissingKA (fs : List String) (coll : List Record) : Nat :=
  (coll.filter (fun r =>
    missingRec fs r && (truthy r.artist && truthy r.album))).length

/-- The loop of `find_and_download_missing_covers`.  The Python loop walks
indices `0..n-1` and mutates only `collection[i]` at step `i`, so it is
rendered as structural recursion over the list, threading the filesystem
through the downloads.  Returns (collection, filesystem, missing count,
downloaded count). -/
def sweepGo (cd : String) (net : Net) (fs : List String) :
    List Record → List Record × List String × Nat × Nat
  | [] => ([], fs, 0, 0)
  | record :: rest =>
    if missingRec fs record then
      if truthy record.artist && truthy record.album then
        let dl := download_album_cover cd net fs (record.artist.getD "")
          (record.album.getD "")
        match dl.path with
        | some p =>
          let t := sweepGo cd net dl.fs rest
          ({ record with cover_path := some p } :: t.1, t.2.1, t.2.2.1 + 1,
            t.2.2.2 + 1)
        | none =>
          let t := sweepGo cd net dl.fs rest
          (record :: t.1, t.2.1, t.2.2.1 + 1, t.2.2.2)
      else
        let t := sweepGo cd net fs rest
        (record :: t.1, t.2.1, t.2.2.1 + 1, t.2.2.2)
    else
      let t := sweepGo cd net fs rest
      (record :: t.1, t.2.1, t.2.2.1, t.2.2.2)

/-- `find_and_download_missing_covers`: scan the whole catalog (the
empty-collection early return coincides with the empty scan); mutates the
in-memory catalog only and never touches the backing file. -/
def find_and_download_missing_covers (cd : String) (net : Net)
    (collection : List Record) (fs : List String) :
    List Record × List String × Nat × Nat :=
  sweepGo cd net fs collection

/-! ### Concrete instances used by witnesses and counterexamples -/

/-- A network where every request fails and `os.remove` succeeds. -/
def netNull : Net :=
  ⟨fun _ => .err, fun _ => false, fun _ => false, fun _ => .err, fun _ => true⟩

/-- A network where the search for `"A B"` yields a 600-pixel artwork URL
`u` and downloads and writes succeed. -/
def netHit : Net :=
  ⟨fun _ => .err, fun _ => true, fun _ => true,
   fun t => if t = "A B" then .found { artworkUrl600 := some "u" } else .err,
   fun _ => true⟩

/-- A record with an existing cover. -/
def rOld : Record :=
  { artist := some "A", album := some "B", cover_path := some "covers/old.jpg" }

/-- Field changes that blank the artist. -/
def ndBlankArtist : NewData := { artist := some (some "") }

/-- Field changes with an explicit `cover_path: None` entry. -/
def ndClear : NewData := { cover_path := some none }

/-- A two-record catalog where the first record's automatic download lands
exactly on the second record's dangling cover path. -/
def coll8 : List Record :=
  [{ artist := some "A", album := some "B" },
   { artist := some "C", album := some "D", cover_path := some "covers/A_B.jpg" }]

end RecordManager

namespace RecordManager

/-! ### Helper lemmas -/

theorem fsHas_cons (q : String) (fs : List String) (x : String) :
    fsHas (q :: fs) x = if q = x then true else fsHas fs x := rfl

theorem fsHas_cons_of {fs : List String} {x : String} (q : String)
    (h : fsHas fs x = true) : fsHas (q :: fs) x = true := by
  rw [fsHas_cons]
  split <;> simp [h]

theorem fsHas_fsRemove (fs : List String) (p : String) :
    fsHas (fsRemove fs p) p = false := by
  induction fs with
  | nil => rfl
  | cons q t ih =>
    unfold fsRemove
    split
    · exact ih
    · rw [fsHas_cons, if_neg (by assumption)]
      exact ih

theorem dl_fs_mono {cd : String} {net : Net} {fs : List String}
    {url base x : String} (hx : fsHas fs x = true) :
    fsHas (download_and_save_image cd net fs url base).fs x = true := by
  unfold download_and_save_image
  dsimp only
  repeat' split
  all_goals first
    | exact hx
    | exact fsHas_cons_of _ hx

theorem dac_fs_mono {cd : String} {net : Net} {fs : List String}
    {artist album x : String} (hx : fsHas fs x = true) :
    fsHas (download_album_cover cd net fs artist album).fs x = true := by
  unfold download_album_cover
  dsimp only
  repeat' split
  all_goals first
    | exact hx
    | exact dl_fs_mono hx

theorem resolve_fs_mono {cd : String} {net : Net} {fs : List String}
    {r : Record} {nd : NewData} {mc : Bool} {mu : Option String} {x : String}
    (hx : fsHas fs x = true) :
    fsHas (resolveCover cd net fs r nd mc mu).2.1 x = true := by
  unfold resolveCover
  dsimp only
  repeat' split
  all_goals first
    | exact hx
    | exact dl_fs_mono hx
    | exact dac_fs_mono hx

theorem find_record_some {coll : List Record} {idx : Int} {r : Record}
    (h : find_record_by_index coll idx = some r) :
    idx.toNat < coll.length ∧ coll[idx.toNat]? = some r := by
  unfold find_record_by_index at h
  split at h
  · next hc => exact ⟨by omega, h⟩
  · simp at h

theorem update_record_eq (cd : String) (net : Net) (coll : List Record)
    (fs : List String) (idx : Int) (nd : NewData) (mc : Bool) (mu : Option String)
    {r : Record} (h : find_record_by_index coll idx = some r) :
    update_record cd net coll fs idx nd mc mu =
      ⟨true,
       coll.set idx.toNat
         { mergeFields r nd with cover_path := (resolveCover cd net fs r nd mc mu).1 },
       (if (resolveCover cd net fs r nd mc mu).1 ≠ r.cover_path ∧
            truthy r.cover_path ∧
            fsHas (resolveCover cd net fs r nd mc mu).2.1 (r.cover_path.getD "") then
          if net.removeOk (r.cover_path.getD "") then
            fsRemove (resolveCover cd net fs r nd mc mu).2.1 (r.cover_path.getD "")
          else (resolveCover cd net fs r nd mc mu).2.1
        else (resolveCover cd net fs r nd mc mu).2.1),
       (resolveCover cd net fs r nd mc mu).2.2⟩ := by
  unfold update_record
  rw [h]

/-- C3: the claim says the sanitized name contains no backslash, and the
code comment agrees, but the regex never matches a backslash: on the
three-character input `a\b` the function is the identity and the result
still contains the backslash. -/
theorem C3_sanitize_keeps_backslash :
    sanitize_filename "a\\b" = "a\\b" ∧
      '\\' ∈ (sanitize_filename "a\\b").toList := by
  decide

/-- C9: loading from an absent backing file yields an empty catalog and no
error, and loading from an existing but undecodable file yields an empty
catalog with only a warning; in both cases `load_collection` returns
normally. -/
theorem C9_load_fallbacks :
    load_collection .absent = ([], .emptyNotFound) ∧
      load_collection .unreadable = ([], .emptyWithWarning) :=
  ⟨rfl, rfl⟩

/-- C4: with an out-of-range index, `update_record` and `delete_record`
both report failure and leave the catalog (and the filesystem) completely
unchanged. -/
theorem C4_out_of_range_noop (cd : String) (net : Net) (coll : List Record)
    (fs : List String) (idx : Int) (nd : NewData) (mc : Bool) (mu : Option String)
    (h : ¬(0 ≤ idx ∧ idx < (coll.length : Int))) :
    update_record cd net coll fs idx nd mc mu = ⟨false, coll, fs, false⟩ ∧
      delete_record net coll fs idx = (false, coll, fs) := by
  constructor
  · unfold update_record find_record_by_index
    rw [if_neg h]
  · unfold delete_record
    rw [if_neg h]

theorem C4_out_of_range_noop_witness :
    update_record "covers" netNull [] [] 0 {} false none = ⟨false, [], [], false⟩ ∧
      delete_record netNull [] [] 0 = (false, [], []) :=
  C4_out_of_range_noop "covers" netNull [] [] 0 {} false none (by decide)

/-- C7: without a manual cover URL, an explicit `cover_path` key in the
field changes (its value possibly null) is used verbatim as the new cover
path, no download is attempted, and this holds for either value of
`manage_cover`. -/
theorem C7_explicit_cover_path (cd : String) (net : Net) (coll : List Record)
    (fs : List String) (idx : Int) (nd : NewData) (mc : Bool) (mu : Option String)
    {r : Record} {v : Option String}
    (hfind : find_record_by_index coll idx = some r)
    (hmu : truthy mu = false)
    (hcp : nd.cover_path = some v) :
    (update_record cd net coll fs idx nd mc mu).ok = true ∧
      (update_record cd net coll fs idx nd mc mu).collection[idx.toNat]? =
        some { mergeFields r nd with cover_path := v } ∧
      (update_record cd net coll fs idx nd mc mu).attempted = false := by
  obtain ⟨hlt, -⟩ := find_record_some hfind
  rw [update_record_eq cd net coll fs idx nd mc mu hfind]
  have hres : resolveCover cd net fs r nd mc mu = (v, fs, false) := by
    unfold resolveCover
    dsimp only
    rw [hmu, hcp]
    simp
  rw [hres]
  refine ⟨rfl, ?_, rfl⟩
  simp [List.getElem?_set, hlt]

theorem C7_explicit_cover_path_witness :
    (update_record "covers" netNull [rOld] ["covers/old.jpg"] 0 ndClear true none).ok = true ∧
      (update_record "covers" netNull [rOld] ["covers/old.jpg"] 0 ndClear true none).collection[(0 : Int).toNat]? =
        some { mergeFields rOld ndClear with cover_path := none } ∧
      (update_record "covers" netNull [rOld] ["covers/old.jpg"] 0 ndClear true none).attempted = false :=
  C7_explicit_cover_path "covers" netNull [rOld] ["covers/old.jpg"] 0 ndClear true none
    (by decide) (by decide) rfl

/-- C10: with a manual cover URL but an empty post-change artist or album,
the cover path stays exactly the old one, no download is attempted, an
explicit `cover_path` entry in the field changes is ignored (the
manual-URL branch consumes the precedence), the filesystem is untouched
and the update still returns true. -/
theorem C10_manual_url_missing_fields (cd : String) (net : Net)
    (coll : List Record) (fs : List String) (idx : Int) (nd : NewData)
    (mc : Bool) (mu : Option String) {r : Record}
    (hfind : find_record_by_index coll idx = some r)
    (hmu : truthy mu = true)
    (hab : truthy (nd.artist.getD r.artist) = false ∨
      truthy (nd.album.getD r.album) = false) :
    (update_record cd net coll fs idx nd mc mu).ok = true ∧
      (update_record cd net coll fs idx nd mc mu).collection[idx.toNat]? =
        some { mergeFields r nd with cover_path := r.cover_path } ∧
      (update_record cd net coll fs idx nd mc mu).attempted = false ∧
      (update_record cd net coll fs idx nd mc mu).fs = fs := by
  obtain ⟨hlt, -⟩ := find_record_some hfind
  rw [update_record_eq cd net coll fs idx nd mc mu hfind]
  have hres : resolveCover cd net fs r nd mc mu = (r.cover_path, fs, false) := by
    unfold resolveCover
    dsimp only
    rw [hmu]
    rcases hab with hab | hab <;> rw [hab] <;> simp
  rw [hres]
  refine ⟨rfl, ?_, rfl, ?_⟩
  · simp [List.getElem?_set, hlt]
  · simp

theorem C10_manual_url_missing_fields_witness :
    (update_record "covers" netNull [rOld] ["covers/old.jpg"] 0 ndBlankArtist false
        (some "http://x/c.png")).ok = true ∧
      (update_record "covers" netNull [rOld] ["covers/old.jpg"] 0 ndBlankArtist false
        (some "http://x/c.png")).collection[(0 : Int).toNat]? =
        some { mergeFields rOld ndBlankArtist with cover_path := rOld.cover_path } ∧
      (update_record "covers" netNull [rOld] ["covers/old.jpg"] 0 ndBlankArtist false
        (some "http://x/c.png")).attempted = false ∧
      (update_record "covers" netNull [rOld] ["covers/old.jpg"] 0 ndBlankArtist false
        (some "http://x/c.png")).fs = ["covers/old.jpg"] :=
  C10_manual_url_missing_fields "covers" netNull [rOld] ["covers/old.jpg"] 0 ndBlankArtist
    false (some "http://x/c.png") (by decide) (by decide) (Or.inl (by decide))

/-- C2: a provided manual cover URL with non-empty post-change artist and
album whose download fails leaves the record's cover path exactly the old
one (not null), and the update still returns true. -/
theorem C2_manual_url_failure_keeps_old (cd : String) (net : Net)
    (coll : List Record) (fs : List String) (idx : Int) (nd : NewData)
    (mc : Bool) (url : String) {r : Record}
    (hfind : find_record_by_index coll idx = some r)
    (hurl : truthy (some url) = true)
    (ha : truthy (nd.artist.getD r.artist) = true)
    (hb : truthy (nd.album.getD r.album) = true)
    (hdl : (download_and_save_image cd net fs url
      (sanitize_filename ((nd.artist.getD r.artist).getD "") ++ "_" ++
        sanitize_filename ((nd.album.getD r.album).getD ""))).path = none) :
    (update_record cd net coll fs idx nd mc (some url)).ok = true ∧
      (update_record cd net coll fs idx nd mc (some url)).collection[idx.toNat]? =
        some { mergeFields r nd with cover_path := r.cover_path } := by
  obtain ⟨hlt, -⟩ := find_record_some hfind
  rw [update_record_eq cd net coll fs idx nd mc (some url) hfind]
  have hres : resolveCover cd net fs r nd mc (some url) =
      (r.cover_path,
       (download_and_save_image cd net fs url
         (sanitize_filename ((nd.artist.getD r.artist).getD "") ++ "_" ++
           sanitize_filename ((nd.album.getD r.album).getD ""))).fs, true) := by
    unfold resolveCover
    dsimp only
    rw [hurl, ha, hb]
    simp [hdl]
  rw [hres]
  refine ⟨rfl, ?_⟩
  simp [List.getElem?_set, hlt]

theorem C2_manual_url_failure_keeps_old_witness :
    (update_record "covers" netNull [rOld] [] 0 {} false (some "http://x/u.png")).ok = true ∧
      (update_record "covers" netNull [rOld] [] 0 {} false
          (some "http://x/u.png")).collection[(0 : Int).toNat]? =
        some { mergeFields rOld {} with cover_path := rOld.cover_path } :=
  C2_manual_url_failure_keeps_old "covers" netNull [rOld] [] 0 {} false "http://x/u.png"
    (by decide) (by decide) (by decide) (by decide) (by decide)

/-- C1 (counterexample): with `manage_cover` set, no manual URL and no
`cover_path` key, blanking the artist makes the post-change artist empty,
yet the resulting cover path is the old `covers/old.jpg`, not null as the
claim demands. -/
theorem C1_counterexample :
    ((update_record "covers" netNull [rOld] ["covers/old.jpg"] 0 ndBlankArtist true
        none).collection[(0 : Int).toNat]?).map Record.cover_path =
      some (some "covers/old.jpg") ∧
    ((update_record "covers" netNull [rOld] ["covers/old.jpg"] 0 ndBlankArtist true
        none).collection[(0 : Int).toNat]?).map Record.cover_path ≠ some none := by
  decide

/-- C1 (amended): with `manage_cover` set, no manual URL and no explicit
`cover_path` key, a failing automatic lookup with non-empty post-change
artist and album clears the cover path to null; but when the post-change
artist or album is missing/empty, the cover path keeps its old value
instead.  The update returns true either way. -/
theorem C1_auto_cover (cd : String) (net : Net) (coll : List Record)
    (fs : List String) (idx : Int) (nd : NewData) (mu : Option String) {r : Record}
    (hfind : find_record_by_index coll idx = some r)
    (hmu : truthy mu = false)
    (hcp : nd.cover_path = none) :
    (update_record cd net coll fs idx nd true mu).ok = true ∧
      (truthy (nd.artist.getD r.artist) = true →
        truthy (nd.album.getD r.album) = true →
        (download_album_cover cd net fs ((nd.artist.getD r.artist).getD "")
          ((nd.album.getD r.album).getD "")).path = none →
        (update_record cd net coll fs idx nd true mu).collection[idx.toNat]? =
          some { mergeFields r nd with cover_path := none }) ∧
      ((truthy (nd.artist.getD r.artist) = false ∨
          truthy (nd.album.getD r.album) = false) →
        (update_record cd net coll fs idx nd true mu).collection[idx.toNat]? =
          some { mergeFields r nd with cover_path := r.cover_path }) := by
  obtain ⟨hlt, -⟩ := find_record_some hfind
  rw [update_record_eq cd net coll fs idx nd true mu hfind]
  refine ⟨rfl, ?_, ?_⟩
  · intro ha hb hdl
    have hres : resolveCover cd net fs r nd true mu =
        (none,
         (download_album_cover cd net fs ((nd.artist.getD r.artist).getD "")
           ((nd.album.getD r.album).getD "")).fs, true) := by
      unfold resolveCover
      dsimp only
      rw [hmu, hcp]
      simp [ha, hb, hdl]
    rw [hres]
    simp [List.getElem?_set, hlt]
  · intro hab
    have hres : resolveCover cd net fs r nd true mu = (r.cover_path, fs, false) := by
      unfold resolveCover
      dsimp only
      rw [hmu, hcp]
      rcases hab with hab | hab <;> simp [hab]
    rw [hres]
    simp [List.getElem?_set, hlt]

theorem C1_auto_cover_witness :
    (update_record "covers" netNull [rOld] [] 0 {} true none).ok = true ∧
      (update_record "covers" netNull [rOld] [] 0 {} true
          none).collection[(0 : Int).toNat]? =
        some { mergeFields rOld {} with cover_path := none } := by
  have h := @C1_auto_cover "covers" netNull [rOld] [] 0 {} none rOld
    (by decide) (by decide) rfl
  exact ⟨h.1, h.2.1 (by decide) (by decide) (by decide)⟩

/-- C5: on a valid index, when the finally-resolved cover path differs
from the record's original one, the original path is non-empty and its
file exists, the old file disappears from disk when `os.remove` succeeds;
the update returns true and stores the merged record at the index
regardless (so also when the removal fails). -/
theorem C5_old_cover_cleanup (cd : String) (net : Net) (coll : List Record)
    (fs : List String) (idx : Int) (nd : NewData) (mc : Bool) (mu : Option String)
    {r : Record} {p : String}
    (hfind : find_record_by_index coll idx = some r)
    (hold : r.cover_path = some p)
    (hp : p.isEmpty = false)
    (hfs : fsHas fs p = true)
    (hdiff : (resolveCover cd net fs r nd mc mu).1 ≠ some p) :
    (update_record cd net coll fs idx nd mc mu).ok = true ∧
      (update_record cd net coll fs idx nd mc mu).collection[idx.toNat]? =
        some { mergeFields r nd with
          cover_path := (resolveCover cd net fs r nd mc mu).1 } ∧
      (net.removeOk p = true →
        fsHas (update_record cd net coll fs idx nd mc mu).fs p = false) := by
  obtain ⟨hlt, -⟩ := find_record_some hfind
  rw [update_record_eq cd net coll fs idx nd mc mu hfind]
  refine ⟨rfl, ?_, ?_⟩
  · simp [List.getElem?_set, hlt]
  · intro hrm
    rw [hold]
    simp only [Option.getD_some]
    have h2 : truthy (some p) = true := by simp [truthy, hp]
    have h3 : fsHas (resolveCover cd net fs r nd mc mu).2.1 p = true :=
      resolve_fs_mono hfs
    rw [if_pos ⟨hdiff, h2, h3⟩, if_pos hrm]
    exact fsHas_fsRemove _ p

theorem C5_old_cover_cleanup_witness :
    (update_record "covers" netNull [rOld] ["covers/old.jpg"] 0 ndClear false none).ok =
        true ∧
      (update_record "covers" netNull [rOld] ["covers/old.jpg"] 0 ndClear false
          none).collection[(0 : Int).toNat]? =
        some { mergeFields rOld ndClear with
          cover_path :=
            (resolveCover "covers" netNull ["covers/old.jpg"] rOld ndClear false none).1 } ∧
      (netNull.removeOk "covers/old.jpg" = true →
        fsHas (update_record "covers" netNull [rOld] ["covers/old.jpg"] 0 ndClear false
          none).fs "covers/old.jpg" = false) :=
  C5_old_cover_cleanup "covers" netNull [rOld] ["covers/old.jpg"] 0 ndClear false none
    (by decide) (by decide) (by decide) (by decide) (by decide)

theorem dl_path_some {cd : String} {net : Net} {fs : List String}
    {url base p : String}
    (h : (download_and_save_image cd net fs url base).path = some p) :
    (url.isEmpty || base.isEmpty) = false ∧
      p = cd ++ "/" ++ base ++ determineExt net url ∧
      fsHas (download_and_save_image cd net fs url base).fs p = true := by
  by_cases h0 : (url.isEmpty || base.isEmpty) = true
  · unfold download_and_save_image at h
    simp [h0] at h
  · have h0' : (url.isEmpty || base.isEmpty) = false := by simpa using h0
    by_cases hex : fsHas fs (cd ++ "/" ++ base ++ determineExt net url) = true
    · have hval : download_and_save_image cd net fs url base =
          ⟨some (cd ++ "/" ++ base ++ determineExt net url), fs, false⟩ := by
        unfold download_and_save_image
        dsimp only
        simp [h0, hex]
      rw [hval] at h ⊢
      simp only [Option.some.injEq] at h
      exact ⟨h0', h.symm, by rw [← h]; exact hex⟩
    · by_cases hg : (net.getOk url &&
          net.writeOk (cd ++ "/" ++ base ++ determineExt net url)) = true
      · have hval : download_and_save_image cd net fs url base =
            ⟨some (cd ++ "/" ++ base ++ determineExt net url),
             (cd ++ "/" ++ base ++ determineExt net url) :: fs, true⟩ := by
          unfold download_and_save_image
          dsimp only
          simp [h0, hex, hg]
        rw [hval] at h ⊢
        simp only [Option.some.injEq] at h
        refine ⟨h0', h.symm, ?_⟩
        rw [fsHas_cons, if_pos h]
      · have hval : download_and_save_image cd net fs url base =
            ⟨none, fs, true⟩ := by
          unfold download_and_save_image
          dsimp only
          simp [h0, hex, hg]
        rw [hval] at h
        simp at h

theorem dl_short_circuit {cd : String} {net : Net} {fs : List String}
    {url base : String}
    (h0 : (url.isEmpty || base.isEmpty) = false)
    (hex : fsHas fs (cd ++ "/" ++ base ++ determineExt net url) = true) :
    download_and_save_image cd net fs url base =
      ⟨some (cd ++ "/" ++ base ++ determineExt net url), fs, false⟩ := by
  unfold download_and_save_image
  dsimp only
  simp [h0, hex]

/-- C6: if the target file `{covers_dir}/{base}{extension}` already
exists, `_download_and_save_image` returns exactly that path with the
filesystem untouched and no full download performed; consequently, once
the cover resolution for an artist/album pair has produced a file
reference, running it again against the same (deterministic) network
returns the same reference. -/
theorem C6_short_circuit_idempotent (cd : String) :
    (∀ (net : Net) (fs : List String) (url base : String),
      (url.isEmpty || base.isEmpty) = false →
      fsHas fs (cd ++ "/" ++ base ++ determineExt net url) = true →
      download_and_save_image cd net fs url base =
        ⟨some (cd ++ "/" ++ base ++ determineExt net url), fs, false⟩) ∧
    (∀ (net : Net) (fs : List String) (artist album p : String),
      (download_album_cover cd net fs artist album).path = some p →
      (download_album_cover cd net
        (download_album_cover cd net fs artist album).fs artist album).path =
        some p) := by
  constructor
  · intro net fs url base h0 hex
    exact dl_short_circuit h0 hex
  · intro net fs artist album p h
    by_cases h0 : (artist.isEmpty || album.isEmpty) = true
    · unfold download_album_cover at h
      simp [h0] at h
    · cases hs : net.search (artist ++ " " ++ album) with
      | err =>
        unfold download_album_cover at h
        simp [h0, hs] at h
      | empty =>
        unfold download_album_cover at h
        simp [h0, hs] at h
      | found res =>
        cases hk : firstArtKey res with
        | none =>
          unfold download_album_cover at h
          simp [h0, hs, hk] at h
        | some u =>
          by_cases hu2 : (strReplace u "100x100bb" "600x600bb").isEmpty = true
          · unfold download_album_cover at h
            simp [h0, hs, hk, hu2] at h
          · have hred : ∀ fs0 : List String,
                download_album_cover cd net fs0 artist album =
                  download_and_save_image cd net fs0
                    (strReplace u "100x100bb" "600x600bb")
                    (sanitize_filename artist ++ "_" ++ sanitize_filename album) := by
              intro fs0
              unfold download_album_cover
              dsimp only
              simp [h0, hs, hk, hu2]
            rw [hred] at h
            obtain ⟨hne, hp, hmem⟩ := dl_path_some h
            rw [hred, hred]
            have hex2 : fsHas
                (download_and_save_image cd net fs
                  (strReplace u "100x100bb" "600x600bb")
                  (sanitize_filename artist ++ "_" ++ sanitize_filename album)).fs
                (cd ++ "/" ++ (sanitize_filename artist ++ "_" ++ sanitize_filename album) ++
                  determineExt net (strReplace u "100x100bb" "600x600bb")) = true := by
              rw [← hp]
              exact hmem
            rw [dl_short_circuit hne hex2]
            rw [hp]

theorem C6_short_circuit_idempotent_witness :
    download_and_save_image "covers" netNull ["covers/a.jpg"] "u" "a" =
      ⟨some "covers/a.jpg", ["covers/a.jpg"], false⟩ ∧
    (download_album_cover "covers" netHit
      (download_album_cover "covers" netHit [] "A" "B").fs "A" "B").path =
      some "covers/A_B.jpg" := by
  constructor
  · exact ((C6_short_circuit_idempotent "covers").1 netNull ["covers/a.jpg"] "u" "a"
      (by decide) (by decide)).trans (by decide)
  · exact (C6_short_circuit_idempotent "covers").2 netHit [] "A" "B" "covers/A_B.jpg"
      (by decide)

theorem missingRec_anti {fs fs' : List String}
    (hsub : ∀ x, fsHas fs x = true → fsHas fs' x = true) {r : Record}
    (h : missingRec fs' r = true) : missingRec fs r = true := by
  unfold missingRec at h ⊢
  by_cases ht : truthy r.cover_path = false
  · rw [if_pos ht]
  · rw [if_neg ht] at h ⊢
    cases hc : fsHas fs (r.cover_path.getD "") with
    | false => simp [hc]
    | true =>
      rw [hsub _ hc] at h
      simp at h

theorem countMissing_cons (fs : List String) (r : Record) (rest : List Record) :
    countMissing fs (r :: rest) =
      (if missingRec fs r = true then 1 else 0) + countMissing fs rest := by
  unfold countMissing
  rw [List.filter_cons]
  split <;> simp_arith

theorem countMissingKA_cons (fs : List String) (r : Record) (rest : List Record) :
    countMissingKA fs (r :: rest) =
      (if (missingRec fs r && (truthy r.artist && truthy r.album)) = true then 1 else 0) +
        countMissingKA fs rest := by
  unfold countMissingKA
  rw [List.filter_cons]
  split <;> simp_arith

theorem countMissing_anti {fs fs' : List String}
    (hsub : ∀ x, fsHas fs x = true → fsHas fs' x = true) :
    ∀ coll : List Record, countMissing fs' coll ≤ countMissing fs coll := by
  intro coll
  induction coll with
  | nil => simp [countMissing]
  | cons r rest ih =>
    rw [countMissing_cons, countMissing_cons]
    have hr : (if missingRec fs' r = true then 1 else 0) ≤
        (if missingRec fs r = true then 1 else 0) := by
      by_cases h : missingRec fs' r = true
      · rw [if_pos h, if_pos (missingRec_anti hsub h)]
      · rw [if_neg h]
        split <;> omega
    omega

theorem countMissingKA_anti {fs fs' : List String}
    (hsub : ∀ x, fsHas fs x = true → fsHas fs' x = true) :
    ∀ coll : List Record, countMissingKA fs' coll ≤ countMissingKA fs coll := by
  intro coll
  induction coll with
  | nil => simp [countMissingKA]
  | cons r rest ih =>
    rw [countMissingKA_cons, countMissingKA_cons]
    have hr : (if (missingRec fs' r && (truthy r.artist && truthy r.album)) = true then 1 else 0) ≤
        (if (missingRec fs r && (truthy r.artist && truthy r.album)) = true then 1 else 0) := by
      by_cases h : (missingRec fs' r && (truthy r.artist && truthy r.album)) = true
      · rw [if_pos h]
        rw [Bool.and_eq_true] at h
        rw [if_pos (by rw [Bool.and_eq_true]; exact ⟨missingRec_anti hsub h.1, h.2⟩)]
      · rw [if_neg h]
        split <;> omega
    omega

/-- C8 (amended): over any catalog and filesystem, the sweep reports a
missing count at most the number M of records whose cover path is
untruthy or dangling in the initial filesystem, a downloaded count at
most the number K of those that also have truthy artist and album, and
returns a catalog of unchanged length; it never touches the backing
file.  (Missing can fall below M because a download earlier in the sweep
can create the file named by a later record's dangling path.) -/
theorem C8_sweep_bounds (cd : String) (net : Net) (coll : List Record) :
    ∀ fs : List String,
      (find_and_download_missing_covers cd net coll fs).2.2.1 ≤ countMissing fs coll ∧
        (find_and_download_missing_covers cd net coll fs).2.2.2 ≤ countMissingKA fs coll ∧
        (find_and_download_missing_covers cd net coll fs).1.length = coll.length := by
  unfold find_and_download_missing_covers
  induction coll with
  | nil =>
    intro fs
    simp [sweepGo, countMissing, countMissingKA]
  | cons r rest ih =>
    intro fs
    rw [countMissing_cons, countMissingKA_cons]
    unfold sweepGo
    by_cases hm : missingRec fs r = true
    · rw [if_pos hm]
      by_cases hab : (truthy r.artist && truthy r.album) = true
      · rw [if_pos hab]
        dsimp only
        have hsub : ∀ x, fsHas fs x = true →
            fsHas (download_album_cover cd net fs (r.artist.getD "")
              (r.album.getD "")).fs x = true :=
          fun x hx => dac_fs_mono hx
        obtain ⟨h1, h2, h3⟩ :=
          ih (download_album_cover cd net fs (r.artist.getD "") (r.album.getD "")).fs
        have ha1 := countMissing_anti hsub rest
        have ha2 := countMissingKA_anti hsub rest
        rw [if_pos hm, if_pos (by rw [Bool.and_eq_true]; exact ⟨hm, hab⟩)]
        cases hdl : (download_album_cover cd net fs (r.artist.getD "")
            (r.album.getD "")).path with
        | some p =>
          dsimp only
          exact ⟨by omega, by omega, by simp [h3]⟩
        | none =>
          dsimp only
          exact ⟨by omega, by omega, by simp [h3]⟩
      · rw [if_neg hab]
        dsimp only
        obtain ⟨h1, h2, h3⟩ := ih fs
        rw [if_pos hm,
          if_neg (by rw [Bool.and_eq_true]; exact fun hh => hab hh.2)]
        exact ⟨by omega, by omega, by simp [h3]⟩
    · rw [if_neg hm]
      dsimp only
      obtain ⟨h1, h2, h3⟩ := ih fs
      rw [if_neg hm,
        if_neg (by rw [Bool.and_eq_true]; exact fun hh => hm hh.1)]
      exact ⟨by omega, by omega, by simp [h3]⟩

/-- C8 (counterexample): two records, the first with no cover and the
second whose dangling cover path `covers/A_B.jpg` is exactly where the
first record's download lands: M = 2 records are initially missing, yet
the sweep reports a missing count of 1. -/
theorem C8_counterexample :
    countMissing [] coll8 = 2 ∧
      (find_and_download_missing_covers "covers" netHit coll8 []).2.2.1 = 1 := by
  decide

end RecordManager
